import Mathlib

/-!
# Verification of the jirai_sweeties crawler/ingestion core

A shallow embedding of the store-data extraction pipeline of this repository:

* `store_data_extractor/src/data_extractor.py`  — price parsing, pagination,
  fetch retry loop, `process_items`;
* `store_data_extractor/src/store_database.py`  — the SQLite-backed
  reconciliation store (`add_store`, `add_or_update_product`,
  `sync_store_products`, `get_unsent_products`);
* `store_data_extractor/store_manager.py`       — scheduling
  (`should_run_now`) and the per-store dispatch (`fetch_store_data`).

Python strings are modelled by `String`, Python `None`-able values by
`Option`, SQLite rows by structures, wall-clock timestamps by `Nat`, and
Python `float` prices by `ℚ` (every concrete price value appearing in the
theorems below is exactly representable as an IEEE double, so the rational
model agrees with the Python semantics on them).
-/

/-- Python `str.strip()`: remove leading and trailing whitespace. -/
def pyStrip (s : String) : String :=
  ⟨((s.data.dropWhile Char.isWhitespace).reverse.dropWhile Char.isWhitespace).reverse⟩

/-- Python `str(·)` applied to an `int`: the decimal representation.
`str(0) = "0"`, otherwise the base-10 digits, most significant first. -/
def pyStrNat (n : Nat) : String :=
  if n = 0 then "0" else ⟨((Nat.digits 10 n).map Nat.digitChar).reverse⟩

/-- Python `str(·)` applied to an `Optional[str]`: `str(None) = "None"`,
and `str` of a string is the string itself. -/
def pyStrOfOption : Option String → String
  | none => "None"
  | some s => s

theorem digitChar_inj_of_lt :
    ∀ d, d < 10 → ∀ e, e < 10 → Nat.digitChar d = Nat.digitChar e → d = e := by
  decide

theorem map_digitChar_inj :
    ∀ l₁ l₂ : List Nat, (∀ d ∈ l₁, d < 10) → (∀ d ∈ l₂, d < 10) →
      l₁.map Nat.digitChar = l₂.map Nat.digitChar → l₁ = l₂ := by
  intro l₁
  induction l₁ with
  | nil =>
    intro l₂ _ _ h
    cases l₂ with
    | nil => rfl
    | cons b t => simp at h
  | cons a t ih =>
    intro l₂ h₁ h₂ h
    cases l₂ with
    | nil => simp at h
    | cons b t₂ =>
      simp only [List.map, List.cons.injEq] at h
      have ha : a = b :=
        digitChar_inj_of_lt a (h₁ a (List.mem_cons_self a t)) b
          (h₂ b (List.mem_cons_self b t₂)) h.1
      have ht : t = t₂ :=
        ih t₂ (fun d hd => h₁ d (List.mem_cons_of_mem a hd))
          (fun d hd => h₂ d (List.mem_cons_of_mem b hd)) h.2
      rw [ha, ht]

theorem pyStrNat_data_of_ne_zero {n : Nat} (h : n ≠ 0) :
    (pyStrNat n).data = ((Nat.digits 10 n).map Nat.digitChar).reverse := by
  simp [pyStrNat, h]

theorem pyStrNat_injective : Function.Injective pyStrNat := by
  have habs : ∀ n : Nat, n ≠ 0 → (pyStrNat n).data = List.replicate 1 '0' → False := by
    intro n hn hdata
    rw [pyStrNat_data_of_ne_zero hn] at hdata
    have hmap : (Nat.digits 10 n).map Nat.digitChar = ['0'] := by
      have := congrArg List.reverse hdata
      simpa using this
    cases hdig : Nat.digits 10 n with
    | nil => rw [hdig] at hmap; simp at hmap
    | cons d l =>
      rw [hdig] at hmap
      cases l with
      | cons d' l' => simp at hmap
      | nil =>
        simp only [List.map, List.cons.injEq] at hmap
        have hd10 : d < 10 :=
          Nat.digits_lt_base (by norm_num) (by rw [hdig]; exact List.mem_cons_self d [])
        have hd0 : d = 0 := digitChar_inj_of_lt d hd10 0 (by norm_num) (by simpa using hmap.1)
        have : n = 0 := by
          have := Nat.ofDigits_digits 10 n
          rw [hdig, hd0] at this
          simpa [Nat.ofDigits] using this.symm
        exact hn this
  intro m n h
  by_cases hm : m = 0 <;> by_cases hn : n = 0
  · rw [hm, hn]
  · exact absurd (by rw [← h, hm]; rfl : (pyStrNat n).data = List.replicate 1 '0')
      (fun hc => habs n hn hc)
  · exact absurd (by rw [h, hn]; rfl : (pyStrNat m).data = List.replicate 1 '0')
      (fun hc => habs m hm hc)
  · have hdata : (pyStrNat m).data = (pyStrNat n).data := by rw [h]
    rw [pyStrNat_data_of_ne_zero hm, pyStrNat_data_of_ne_zero hn] at hdata
    have hmap := List.reverse_injective hdata
    have hdig : Nat.digits 10 m = Nat.digits 10 n :=
      map_digitChar_inj _ _ (fun d hd => Nat.digits_lt_base (by norm_num) hd)
        (fun d hd => Nat.digits_lt_base (by norm_num) hd) hmap
    have := congrArg (Nat.ofDigits 10) hdig
    rwa [Nat.ofDigits_digits, Nat.ofDigits_digits] at this

/-! ## Price parsing (`extract_items_by_config`, data_extractor.py lines 94-119)

`re.search(r"[\d,]+", text)` (resp. `r"[\d.,]+"`) returns the first maximal
run of characters of the class; `searchRun` models that search.  The matched
run has its separators removed with `str.replace` and is fed to `float`;
`float` of a non-empty all-digit string is the exact integer value
(`digitsVal`), and `float("")` raises `ValueError`, which the source catches
(leaving no price). -/

/-- `re.search` of a one-or-more character-class pattern: the first maximal
run of characters satisfying `p`, or `none` when no character matches. -/
def searchRun (p : Char → Bool) : List Char → Option (List Char)
  | [] => none
  | c :: rest => if p c then some (c :: rest.takeWhile p) else searchRun p rest

/-- Value of a string of decimal digits, as `int`/`float` would read it. -/
def digitsVal (cs : List Char) : Nat :=
  cs.foldl (fun acc c => 10 * acc + (c.toNat - 48)) 0

/-- JPY branch: match `[\d,]+`, drop the commas, parse as a float. -/
def parseJPY (text : String) : Option ℚ :=
  match searchRun (fun c => c.isDigit || c == ',') text.data with
  | none => none
  | some run =>
    let cleaned := run.filter (fun c => !(c == ','))
    if cleaned.isEmpty then none else some (digitsVal cleaned : ℚ)

/-- EUR branch: match `[\d.,]+`, drop commas and dots, parse as a float and
divide by 100 ("Convert cents to euros"). -/
def parseEUR (text : String) : Option ℚ :=
  match searchRun (fun c => c.isDigit || c == ',' || c == '.') text.data with
  | none => none
  | some run =>
    let cleaned := run.filter (fun c => !(c == ',') && !(c == '.'))
    if cleaned.isEmpty then none else some ((digitsVal cleaned : ℚ) / 100)

/-- C6 counterexample: the claim maps `"15,50 €"` to `0.1550`; the code
strips the separators (giving `1550`) and divides by `100`, yielding `15.5`,
not `0.1550`. -/
theorem parseEUR_not_cents_fraction : ¬ (parseEUR "15,50 €" = some (0.1550 : ℚ)) := by
  have h : parseEUR "15,50 €" = some (((1550 : Nat) : ℚ) / 100) := rfl
  rw [h]
  intro hcontra
  have := Option.some.inj hcontra
  norm_num at this

/-- C6 (amended): the JPY text `"¥12,345"` parses to exactly `12345` and the
EUR text `"15,50 €"` parses to exactly `15.50`: all separators are stripped
from the matched digit run (giving `1550`) and the result is divided
by 100. -/
theorem price_parsing_exact :
    parseJPY "¥12,345" = some (12345 : ℚ) ∧ parseEUR "15,50 €" = some (15.50 : ℚ) := by
  constructor
  · have h : parseJPY "¥12,345" = some (((12345 : Nat) : ℚ)) := rfl
    rw [h]; norm_num
  · have h : parseEUR "15,50 €" = some (((1550 : Nat) : ℚ) / 100) := rfl
    rw [h]; norm_num

/-! ## Schedule matching (`should_run_now`, store_manager.py lines 86-113)

The source reads the per-store `ScheduleSpec`: `minutes` is a required list
(no wildcard), the other four fields are either the wildcard `"*"` or a
list.  Each comparison is made on decimal string representations
(`str(now.minute) not in map(str, minutes)`), which `pyStrNat` models. -/

structure TimeParts where
  minute : Nat
  hour : Nat
  day : Nat
  month : Nat
  year : Nat

/-- A `ScheduleSpec`: `none` in an optional field models the wildcard `"*"`. -/
structure ScheduleSpec where
  minutes : List Nat
  hours : Option (List Nat)
  days : Option (List Nat)
  months : Option (List Nat)
  years : Option (List Nat)

/-- `str(x) in map(str, l)` for Python ints. -/
def pyStrListContains (l : List Nat) (x : Nat) : Bool :=
  (l.map pyStrNat).contains (pyStrNat x)

/-- `StoreManager.should_run_now`, as the chain of early returns in the
source: the minute must match; each non-wildcard field must match. -/
def should_run_now (sch : ScheduleSpec) (now : TimeParts) : Bool :=
  if !(pyStrListContains sch.minutes now.minute) then false
  else if (match sch.hours with
           | some hs => !(pyStrListContains hs now.hour)
           | none => false) then false
  else if (match sch.days with
           | some ds => !(pyStrListContains ds now.day)
           | none => false) then false
  else if (match sch.months with
           | some ms => !(pyStrListContains ms now.month)
           | none => false) then false
  else if (match sch.years with
           | some ys => !(pyStrListContains ys now.year)
           | none => false) then false
  else true

/-- The specification-side predicate: the minute is listed, and every
field with a concrete list contains the corresponding time component
(wildcard fields always pass). -/
def scheduleMatches (sch : ScheduleSpec) (now : TimeParts) : Prop :=
  now.minute ∈ sch.minutes
  ∧ (∀ hs, sch.hours = some hs → now.hour ∈ hs)
  ∧ (∀ ds, sch.days = some ds → now.day ∈ ds)
  ∧ (∀ ms, sch.months = some ms → now.month ∈ ms)
  ∧ (∀ ys, sch.years = some ys → now.year ∈ ys)

theorem pyStrListContains_iff (l : List Nat) (x : Nat) :
    pyStrListContains l x = true ↔ x ∈ l := by
  unfold pyStrListContains
  rw [List.contains_iff_exists_mem_beq]
  constructor
  · rintro ⟨s, hs, hbeq⟩
    rcases List.mem_map.mp hs with ⟨y, hy, hxy⟩
    have : pyStrNat x = pyStrNat y := by
      have := eq_of_beq hbeq
      rw [this, hxy]
    rwa [pyStrNat_injective this]
  · intro hx
    exact ⟨pyStrNat x, List.mem_map.mpr ⟨x, hx, rfl⟩, by simp⟩

/-- C9: `should_run_now` returns `true` iff the minute of `now` is in the
schedule's minutes and, for each non-wildcard field, the corresponding
component of `now` is contained in that field's list; wildcard fields
always pass. -/
theorem should_run_now_iff_matches (sch : ScheduleSpec) (now : TimeParts) :
    should_run_now sch now = true ↔ scheduleMatches sch now := by
  unfold should_run_now scheduleMatches
  rcases sch with ⟨mins, hrs, ds, ms, ys⟩
  simp only
  cases hrs <;> cases ds <;> cases ms <;> cases ys <;>
    simp [pyStrListContains_iff]

/-! ## Fetch retry loop (`main_program`, data_extractor.py lines 213-233)

```
max_retries = 3; retries = 0; html = None
while retries < max_retries:
    html = await get_page_content(current_url, ...)
    if html: break
    retries += 1
    await asyncio.sleep(2)
```

`attempt k` is the outcome of the `k`-th `get_page_content` call as the
loop's `if html:` truthiness test sees it: `none` models a falsy result
(the function returned `None` on a network/HTTP error, or an empty text),
`some html` a truthy page text.  `retryGo`
returns the final `html`, the number of attempts made, and the list of the
sleep durations performed, in seconds.  The loop guard `retries <
max_retries` is captured by `fuel = max_retries - retries`; the top-level
call `fetchWithRetries` starts at `retries = 0`, `fuel = 3`. -/

def retryGo (attempt : Nat → Option String) : Nat → Nat → Option String × Nat × List Nat
  | _, 0 => (none, 0, [])
  | retries, fuel + 1 =>
    match attempt retries with
    | some html => (some html, 1, [])
    | none =>
      let (r, a, s) := retryGo attempt (retries + 1) fuel
      (r, a + 1, 2 :: s)

/-- The whole retry loop for one page URL. -/
def fetchWithRetries (attempt : Nat → Option String) : Option String × Nat × List Nat :=
  retryGo attempt 0 3

theorem retryGo_attempts_le (attempt : Nat → Option String) :
    ∀ fuel retries, (retryGo attempt retries fuel).2.1 ≤ fuel := by
  intro fuel
  induction fuel with
  | zero => intro retries; simp [retryGo]
  | succ f ih =>
    intro retries
    unfold retryGo
    cases h : attempt retries with
    | some html => simp
    | none => simpa using ih (retries + 1)

theorem retryGo_first_success (attempt : Nat → Option String) :
    ∀ fuel retries k h, k < fuel → attempt (retries + k) = some h →
      (∀ j, j < k → attempt (retries + j) = none) →
      retryGo attempt retries fuel = (some h, k + 1, List.replicate k 2) := by
  intro fuel
  induction fuel with
  | zero => intro retries k h hk; omega
  | succ f ih =>
    intro retries k h hk hsucc hfail
    unfold retryGo
    cases k with
    | zero =>
      simp only [Nat.add_zero] at hsucc
      rw [hsucc]
      simp
    | succ k' =>
      have h0 : attempt retries = none := by
        have := hfail 0 (Nat.succ_pos k')
        simpa using this
      rw [h0]
      have hrec := ih (retries + 1) k' h (by omega)
        (by rw [show retries + 1 + k' = retries + (k' + 1) by omega]; exact hsucc)
        (fun j hj => by
          rw [show retries + 1 + j = retries + (j + 1) by omega]
          exact hfail (j + 1) (by omega))
      simp only [hrec]
      rfl

theorem retryGo_all_fail (attempt : Nat → Option String) :
    ∀ fuel retries, (∀ j, j < fuel → attempt (retries + j) = none) →
      retryGo attempt retries fuel = (none, fuel, List.replicate fuel 2) := by
  intro fuel
  induction fuel with
  | zero => intro retries _; simp [retryGo]
  | succ f ih =>
    intro retries hfail
    unfold retryGo
    have h0 : attempt retries = none := by simpa using hfail 0 (Nat.succ_pos f)
    rw [h0]
    have hrec := ih (retries + 1) (fun j hj => by
      rw [show retries + 1 + j = retries + (j + 1) by omega]
      exact hfail (j + 1) (by omega))
    simp only [hrec]
    rfl

/-- C7: for every page URL, at most 3 fetch attempts are made, with a fixed
2-second pause after each failed attempt (so a 2-second pause between any
two consecutive attempts); the page text is returned as soon as any attempt
succeeds (after `k` failures: `k+1` attempts, `k` pauses); and the loop
ends with a failure (`none`) only after all 3 attempts have failed. -/
theorem fetch_retry_policy (attempt : Nat → Option String) :
    (fetchWithRetries attempt).2.1 ≤ 3
    ∧ (∀ k h, k < 3 → attempt k = some h → (∀ j, j < k → attempt j = none) →
        fetchWithRetries attempt = (some h, k + 1, List.replicate k 2))
    ∧ ((∀ j, j < 3 → attempt j = none) →
        fetchWithRetries attempt = (none, 3, List.replicate 3 2)) := by
  refine ⟨retryGo_attempts_le attempt 3 0, ?_, ?_⟩
  · intro k h hk hsucc hfail
    have := retryGo_first_success attempt 3 0 k h hk (by simpa using hsucc)
      (fun j hj => by simpa using hfail j hj)
    simpa using this
  · intro hfail
    have := retryGo_all_fail attempt 3 0 (fun j hj => by simpa using hfail j hj)
    simpa using this

/-- C7 witness: a concrete fetcher whose first two attempts fail and whose
third succeeds: the loop returns the successful content after 3 attempts
and two 2-second pauses; and a permanently failing fetcher yields `none`
after exactly 3 attempts. -/
theorem fetch_retry_policy_witness :
    fetchWithRetries (fun j => if j = 2 then some "page" else none)
        = (some "page", 3, List.replicate 2 2)
    ∧ fetchWithRetries (fun _ => none) = (none, 3, List.replicate 3 2) := by
  constructor
  · exact (fetch_retry_policy (fun j => if j = 2 then some "page" else none)).2.1 2 "page"
      (by decide) (by decide) (by decide)
  · exact (fetch_retry_policy (fun _ => none)).2.2 (fun j _ => rfl)

/-! ## Pagination loop (`main_program`, data_extractor.py lines 203-252)

```
current_url = base_url; visited_urls = set()
while current_url:
    if current_url in visited_urls: break
    visited_urls.add(current_url)
    <fetch with retries; on final failure: break>
    <extract items>
    next_url = await get_next_page_url_by_config(soup, ...)
    if not next_url: break
    current_url = next_url
```

`nextOf url` abstracts one iteration's outcome for the page at `url`: the
absolute next-page URL produced by `get_next_page_url_by_config`, or `none`
when the crawl stops at this page (fetch retries exhausted, no next-page
link, the link's text filter matched nothing, or its attribute was
unresolvable — all of which make the source `break`).  `crawlPages` returns
the list of URLs the loop visits (adds to `visited_urls` and fetches), in
order.  The unbounded `while` is modelled with fuel; the stability theorem
below shows the fuel is irrelevant once it exceeds the number of distinct
URLs, which is the termination claim. -/

def crawlPages (nextOf : String → Option String) :
    Nat → String → List String → List String
  | 0, _, _ => []
  | fuel + 1, url, visited =>
    if visited.contains url then []
    else
      match nextOf url with
      | none => [url]
      | some nxt => url :: crawlPages nextOf fuel nxt (url :: visited)

/-- Number of URLs of the universe `S` not yet visited. -/
def countNew (S visited : List String) : Nat :=
  (S.filter (fun x => !(visited.contains x))).length

theorem countNew_pos {S visited : List String} {url : String}
    (hmem : url ∈ S) (hnv : visited.contains url = false) :
    0 < countNew S visited := by
  unfold countNew
  have : url ∈ S.filter (fun x => !(visited.contains x)) :=
    List.mem_filter.mpr ⟨hmem, by rw [hnv]; rfl⟩
  exact List.length_pos.mpr (List.ne_nil_of_mem this)

theorem countNew_cons_le (S visited : List String) (url : String) :
    countNew S (url :: visited) ≤ countNew S visited := by
  unfold countNew
  induction S with
  | nil => simp
  | cons s S ih =>
    simp only [List.filter]
    cases hv : visited.contains s with
    | true =>
      have : (url :: visited).contains s = true := by
        simp only [List.contains_cons]
        rw [hv, Bool.or_true]
      rw [this]
      simpa using ih
    | false =>
      cases hu : (url :: visited).contains s with
      | true => simp only [Bool.not_true, Bool.not_false, List.length_cons]; omega
      | false => simp only [Bool.not_true, Bool.not_false, List.length_cons]; omega

theorem countNew_cons_lt {S visited : List String} {url : String}
    (hmem : url ∈ S) (hnv : visited.contains url = false) :
    countNew S (url :: visited) < countNew S visited := by
  induction S with
  | nil => cases hmem
  | cons s S ih =>
    unfold countNew
    simp only [List.filter]
    by_cases hs : s = url
    · subst hs
      have h1 : (s :: visited).contains s = true := by
        simp [List.contains_cons]
      rw [h1, hnv]
      simp only [Bool.not_true, Bool.not_false, List.length_cons]
      have := countNew_cons_le S visited s
      unfold countNew at this
      omega
    · have hmem' : url ∈ S := by
        cases List.mem_cons.mp hmem with
        | inl h => exact absurd h.symm hs
        | inr h => exact h
      have hagree : (url :: visited).contains s = visited.contains s := by
        simp only [List.contains_cons]
        have : (s == url) = false := by
          rw [beq_eq_false_iff_ne]
          exact hs
        rw [this, Bool.false_or]
      have hrec := ih hmem'
      unfold countNew at hrec
      rw [hagree]
      cases hv : visited.contains s with
      | false =>
        simp only [hv, Bool.not_false, if_true, List.length_cons]
        omega
      | true =>
        simp only [hv, Bool.not_true, Bool.false_eq_true, if_false]
        exact hrec

theorem crawlPages_nodup_disjoint (nextOf : String → Option String) :
    ∀ fuel url visited, (crawlPages nextOf fuel url visited).Nodup
      ∧ ∀ x ∈ crawlPages nextOf fuel url visited, visited.contains x = false := by
  intro fuel
  induction fuel with
  | zero => intro url visited; simp [crawlPages]
  | succ f ih =>
    intro url visited
    unfold crawlPages
    cases hv : visited.contains url with
    | true => simp
    | false =>
      simp only [Bool.false_eq_true, if_false]
      cases hn : nextOf url with
      | none =>
        refine ⟨List.nodup_singleton url, ?_⟩
        intro x hx
        rw [List.mem_singleton.mp hx]
        exact hv
      | some nxt =>
        obtain ⟨hnd, hdis⟩ := ih nxt (url :: visited)
        constructor
        · refine List.Nodup.cons ?_ hnd
          intro hurlmem
          have := hdis url hurlmem
          simp [List.contains_cons] at this
        · intro x hx
          cases List.mem_cons.mp hx with
          | inl h => rw [h]; exact hv
          | inr h =>
            have := hdis x h
            simp only [List.contains_cons, Bool.or_eq_false_iff] at this
            exact this.2

theorem crawlPages_stable_aux (nextOf : String → Option String) (S : List String)
    (hclosed : ∀ u v, nextOf u = some v → v ∈ S) :
    ∀ n url visited fuel₁ fuel₂, url ∈ S → countNew S visited ≤ n →
      countNew S visited < fuel₁ → countNew S visited < fuel₂ →
      crawlPages nextOf fuel₁ url visited = crawlPages nextOf fuel₂ url visited := by
  intro n
  induction n with
  | zero =>
    intro url visited fuel₁ fuel₂ hurl hle h₁ h₂
    obtain ⟨f₁, rfl⟩ : ∃ f, fuel₁ = f + 1 := ⟨fuel₁ - 1, by omega⟩
    obtain ⟨f₂, rfl⟩ : ∃ f, fuel₂ = f + 1 := ⟨fuel₂ - 1, by omega⟩
    unfold crawlPages
    cases hv : visited.contains url with
    | true => rfl
    | false => exact absurd (countNew_pos hurl hv) (by omega)
  | succ m ih =>
    intro url visited fuel₁ fuel₂ hurl hle h₁ h₂
    obtain ⟨f₁, rfl⟩ : ∃ f, fuel₁ = f + 1 := ⟨fuel₁ - 1, by omega⟩
    obtain ⟨f₂, rfl⟩ : ∃ f, fuel₂ = f + 1 := ⟨fuel₂ - 1, by omega⟩
    unfold crawlPages
    cases hv : visited.contains url with
    | true => rfl
    | false =>
      simp only [Bool.false_eq_true, if_false]
      cases hn : nextOf url with
      | none => rfl
      | some nxt =>
        have hlt := countNew_cons_lt hurl hv
        have heq := ih nxt (url :: visited) f₁ f₂ (hclosed url nxt hn)
          (by omega) (by omega) (by omega)
        simp only [heq]

/-- C8: the pagination loop visits each distinct URL at most once (the
visit list is duplicate-free and disjoint from the visited set), and it
always terminates: whenever every URL reachable through `nextOf` lies in a
finite universe `S`, the crawl's outcome is the same for every sufficient
fuel value — the loop stops on its own at the first absent/unresolvable
next link or at the first already-visited URL, never running longer than
the number of distinct URLs. -/
theorem pagination_visits_once_and_terminates (nextOf : String → Option String)
    (S : List String) (start : String) (visited : List String)
    (hstart : start ∈ S)
    (hclosed : ∀ u v, nextOf u = some v → v ∈ S) :
    (∀ fuel, (crawlPages nextOf fuel start visited).Nodup
      ∧ ∀ x ∈ crawlPages nextOf fuel start visited, visited.contains x = false)
    ∧ (∀ fuel, countNew S visited < fuel →
        crawlPages nextOf fuel start visited
          = crawlPages nextOf (countNew S visited + 1) start visited) := by
  constructor
  · intro fuel
    exact crawlPages_nodup_disjoint nextOf fuel start visited
  · intro fuel hfuel
    exact crawlPages_stable_aux nextOf S hclosed (countNew S visited) start visited
      fuel (countNew S visited + 1) hstart (le_refl _) hfuel (by omega)

/-- C8 witness: the cyclic two-page site of the spec — page 2's "next" link
points back to page 1.  The crawl visits page 1 then page 2, stops at the
repeated URL, and its result is already stable at any fuel ≥ 3. -/
theorem pagination_cycle_witness :
    (crawlPages (fun u => if u = "p1" then some "p2"
                          else if u = "p2" then some "p1" else none) 100 "p1" [])
        = ["p1", "p2"]
    ∧ (crawlPages (fun u => if u = "p1" then some "p2"
                            else if u = "p2" then some "p1" else none) 100 "p1" []).Nodup := by
  have hclosed : ∀ u v, (fun u => if u = "p1" then some "p2"
      else if u = "p2" then some "p1" else none) u = some v → v ∈ ["p1", "p2"] := by
    intro u v h
    by_cases h1 : u = "p1"
    · simp [h1] at h; simp [← h]
    · by_cases h2 : u = "p2"
      · simp [h1, h2] at h; simp [← h]
      · simp [h1, h2] at h
  have hpair := pagination_visits_once_and_terminates
    (fun u => if u = "p1" then some "p2" else if u = "p2" then some "p1" else none)
    ["p1", "p2"] "p1" [] (by simp) hclosed
  constructor
  · have hstable := hpair.2 100 (by decide)
    rw [hstable]
    decide
  · exact (hpair.1 100).1

/-! ## The reconciliation store (store_database.py)

The SQLite schema (`init_database`):

```
Store(id PK AUTOINCREMENT, name, initial_fetch TIMESTAMP DEFAULT NULL)
Product(id PK AUTOINCREMENT, name, product_url, image_url, price_jpy REAL,
        price_eur REAL, archived INTEGER DEFAULT 0,
        first_seen TIMESTAMP, last_seen TIMESTAMP,
        is_sent INTEGER DEFAULT 0, store_id FK)
```

Rows are kept in insertion order (SQLite returns them in rowid order for
these unordered queries), fresh ids come from `nextStoreId` /
`nextProductId` (AUTOINCREMENT).  Storage-layer failures (`sqlite3.Error`,
the `"error"` status branches) are not modelled: every query and insert of
the embedding succeeds. -/

structure StoreRow where
  id : Nat
  name : String
  initial_fetch : Option Nat
deriving Repr, DecidableEq

structure ProductRow where
  id : Nat
  name : String
  product_url : String
  image_url : String
  price_jpy : Option ℚ
  price_eur : Option ℚ
  archived : Nat
  first_seen : Nat
  last_seen : Nat
  is_sent : Bool
  store_id : Nat
deriving Repr, DecidableEq

structure DBState where
  stores : List StoreRow
  products : List ProductRow
  nextStoreId : Nat
  nextProductId : Nat
deriving Repr, DecidableEq

/-- The product dict built and returned by `add_or_update_product`
(`{"id", "name", "product_url", "image_url", "prices": {"JPY", "EUR"}}`). -/
structure ProductOut where
  id : Nat
  name : String
  product_url : String
  image_url : String
  price_jpy : Option ℚ
  price_eur : Option ℚ
deriving Repr, DecidableEq

/-- `SELECT id FROM Store WHERE name = ?` — first row in insertion order. -/
def findStoreName (s : DBState) (name : String) : Option StoreRow :=
  s.stores.find? (fun r => r.name == name)

/-- `StoreDatabase.add_store`: return the id of the existing store of that
name, else insert a new `Store` row (with `initial_fetch` NULL) and return
its id. -/
def add_store (s : DBState) (name : String) : Nat × DBState :=
  match findStoreName s name with
  | some r => (r.id, s)
  | none =>
    (s.nextStoreId,
     { s with
        stores := s.stores ++ [⟨s.nextStoreId, name, none⟩],
        nextStoreId := s.nextStoreId + 1 })

/-- The `UPDATE Product SET price_jpy = ?, price_eur = ?, archived = ?,
last_seen = ? WHERE id = ?` of Case 2b, applied rowwise. -/
def refreshRow (mid : Nat) (pj pe : Option ℚ) (archived : Nat) (now : Nat)
    (r : ProductRow) : ProductRow :=
  if r.id == mid then
    { r with price_jpy := pj, price_eur := pe, archived := archived, last_seen := now }
  else r

/-- `StoreDatabase.add_or_update_product` (store_database.py lines 90-181).
Looks up all products of the store sharing `image_url`; no match → insert,
classify `"new"`; matches but none with this `product_url` → insert a
sibling row, classify `"updated"`; exact match → refresh prices/archived/
last_seen in place, classify `""` (silent).  Argument order follows the
source: name, product_url, image_url, price_jpy, price_eur, archived,
store_name. -/
def add_or_update_product (s : DBState) (now : Nat) (name product_url image_url : String)
    (price_jpy price_eur : Option ℚ) (archived : Nat) (store_name : String) :
    String × Option ProductOut × DBState :=
  let (store_id, s1) := add_store s store_name
  let db_products := s1.products.filter
    (fun r => r.image_url == image_url && r.store_id == store_id)
  if db_products.isEmpty then
    -- Case 1: no product with this image_url: INSERT, classify "new"
    let row : ProductRow :=
      ⟨s1.nextProductId, name, product_url, image_url, price_jpy, price_eur,
       archived, now, now, false, store_id⟩
    ("new", some ⟨row.id, name, product_url, image_url, price_jpy, price_eur⟩,
     { s1 with products := s1.products ++ [row], nextProductId := s1.nextProductId + 1 })
  else
    match db_products.find? (fun r => r.product_url == product_url) with
    | none =>
      -- Case 2a: same image, new URL: INSERT a sibling row, classify "updated"
      let row : ProductRow :=
        ⟨s1.nextProductId, name, product_url, image_url, price_jpy, price_eur,
         archived, now, now, false, store_id⟩
      ("updated", some ⟨row.id, name, product_url, image_url, price_jpy, price_eur⟩,
       { s1 with products := s1.products ++ [row], nextProductId := s1.nextProductId + 1 })
    | some matching_product =>
      -- Case 2b: exact image+URL match: silent in-place refresh
      ("", none,
       { s1 with
          products := s1.products.map
            (refreshRow matching_product.id price_jpy price_eur archived now) })

/-- A candidate item as produced by the extractor (`ProductDataType`):
`image_url` may be `None`; the `prices` dict holds at most a JPY and a EUR
price; `archived` is the sold-out flag. -/
structure ItemIn where
  name : String
  product_url : String
  image_url : Option String
  price_jpy : Option ℚ
  price_eur : Option ℚ
  archived : Bool
deriving Repr, DecidableEq

/-- Field normalization applied by `sync_store_products`:
`item["name"].strip()`. -/
def normName (item : ItemIn) : String := pyStrip item.name

/-- `item["product_url"].strip()`. -/
def normUrl (item : ItemIn) : String := pyStrip item.product_url

/-- `str(item.get("image_url", "")).strip()` — a missing image (`None`)
becomes the literal string `"None"`. -/
def normImg (item : ItemIn) : String := pyStrip (pyStrOfOption item.image_url)

/-- One iteration of the item loop in `sync_store_products`
(store_database.py lines 282-320): normalize the fields, upsert via
`add_or_update_product`, and append the returned product dict to the `new`
(resp. `updated`) accumulator when the status says so, the product is
present, and this is not the store's initial fetch. -/
def syncStep (now : Nat) (store_name : String) (initial_fetch : Bool)
    (acc : List ProductOut × List ProductOut × DBState) (item : ItemIn) :
    List ProductOut × List ProductOut × DBState :=
  let (news, upds, st) := acc
  let (status, prodOpt, st') := add_or_update_product st now (normName item)
    (normUrl item) (normImg item) item.price_jpy item.price_eur
    (if item.archived then 1 else 0) store_name
  match prodOpt with
  | some p =>
    if status == "new" && !initial_fetch then (news ++ [p], upds, st')
    else if status == "updated" && !initial_fetch then (news, upds ++ [p], st')
    else (news, upds, st')
  | none => (news, upds, st')

/-- `SELECT initial_fetch FROM Store WHERE id = ? ... is None`: whether the
store's `initial_fetch` column is still NULL (the row exists — `add_store`
has just ensured it; the `none` default is the unreachable branch). -/
def initialFetchIsNull (s1 : DBState) (store_id : Nat) : Bool :=
  match s1.stores.find? (fun r => r.id == store_id) with
  | some st => st.initial_fetch.isNone
  | none => false

/-- `UPDATE Store SET initial_fetch = ? WHERE id = ?`, applied rowwise. -/
def setInitialFetch (store_id now : Nat) (r : StoreRow) : StoreRow :=
  if r.id == store_id then { r with initial_fetch := some now } else r

/-- `StoreDatabase.sync_store_products` (store_database.py lines 258-322):
resolve/create the store, read whether `initial_fetch` is NULL (first
crawl), set it to `now` if so, then upsert every item, collecting the
`new` and `updated` product dicts — which stay empty on the first crawl. -/
def sync_store_products (s : DBState) (now : Nat) (store_name : String)
    (items : List ItemIn) : List ProductOut × List ProductOut × DBState :=
  let (store_id, s1) := add_store s store_name
  let initial_fetch : Bool := initialFetchIsNull s1 store_id
  let s2 :=
    if initial_fetch then
      { s1 with stores := s1.stores.map (setInitialFetch store_id now) }
    else s1
  items.foldl (syncStep now store_name initial_fetch) ([], [], s2)

/-! ### Auxiliary facts about the reconciliation store -/

/-- A persisted product of store `sid` with the given image and URL. -/
def hasRow (s : DBState) (sid : Nat) (img url : String) : Prop :=
  ∃ r ∈ s.products, r.store_id = sid ∧ r.image_url = img ∧ r.product_url = url

/-- Invariant guaranteed by the SQLite schema: `Store.id` is an
AUTOINCREMENT primary key, so ids are distinct and the next id is fresh. -/
def storesWF (s : DBState) : Prop :=
  (s.stores.map StoreRow.id).Nodup ∧ ∀ r ∈ s.stores, r.id < s.nextStoreId

theorem add_store_found {s : DBState} {name : String} {r : StoreRow}
    (h : findStoreName s name = some r) : add_store s name = (r.id, s) := by
  unfold add_store
  rw [h]

theorem find_by_id_of_nodup {l : List StoreRow}
    (hnodup : (l.map StoreRow.id).Nodup) {r : StoreRow} (hr : r ∈ l) :
    l.find? (fun x => x.id == r.id) = some r := by
  induction l with
  | nil => cases hr
  | cons a t ih =>
    rcases List.mem_cons.mp hr with h | h
    · subst h
      simp [List.find?]
    · have hne : a.id ≠ r.id := by
        intro heq
        have : r.id ∈ t.map StoreRow.id := List.mem_map.mpr ⟨r, h, rfl⟩
        rw [← heq] at this
        exact (List.nodup_cons.mp hnodup).1 this
      have : (a.id == r.id) = false := beq_eq_false_iff_ne.mpr hne
      simp only [List.find?, this]
      exact ih (List.nodup_cons.mp hnodup).2 h

theorem find?_map_of_pred_inv {α : Type} (g : α → α) (p : α → Bool)
    (hp : ∀ a, p (g a) = p a) (l : List α) :
    (l.map g).find? p = (l.find? p).map g := by
  induction l with
  | nil => rfl
  | cons a t ih =>
    simp only [List.map, List.find?]
    rw [hp a]
    cases h : p a with
    | true => rfl
    | false => exact ih

theorem refreshRow_store_id (mid : Nat) (pj pe : Option ℚ) (a now : Nat) (r : ProductRow) :
    (refreshRow mid pj pe a now r).store_id = r.store_id := by
  unfold refreshRow; split <;> rfl

theorem refreshRow_image_url (mid : Nat) (pj pe : Option ℚ) (a now : Nat) (r : ProductRow) :
    (refreshRow mid pj pe a now r).image_url = r.image_url := by
  unfold refreshRow; split <;> rfl

theorem refreshRow_product_url (mid : Nat) (pj pe : Option ℚ) (a now : Nat) (r : ProductRow) :
    (refreshRow mid pj pe a now r).product_url = r.product_url := by
  unfold refreshRow; split <;> rfl

/-- Characterization of Case 1 of `add_or_update_product`: when the store
has no product with this image, a fresh row is inserted, classified
`"new"`, and every prior row is left untouched. -/
theorem aoup_new {s : DBState} {sn : String} {strow : StoreRow}
    (hpres : findStoreName s sn = some strow)
    (now : Nat) (n url img : String) (pj pe : Option ℚ) (a : Nat)
    (hempty : ∀ p ∈ s.products, ¬(p.image_url = img ∧ p.store_id = strow.id)) :
    add_or_update_product s now n url img pj pe a sn
      = ("new", some ⟨s.nextProductId, n, url, img, pj, pe⟩,
         { s with
            products := s.products ++
              [⟨s.nextProductId, n, url, img, pj, pe, a, now, now, false, strow.id⟩],
            nextProductId := s.nextProductId + 1 }) := by
  unfold add_or_update_product
  rw [add_store_found hpres]
  have hfil : s.products.filter
      (fun r => r.image_url == img && r.store_id == strow.id) = [] := by
    rw [List.filter_eq_nil_iff]
    intro p hp
    intro hb
    rcases Bool.and_eq_true_iff.mp hb with ⟨h1, h2⟩
    exact hempty p hp ⟨eq_of_beq h1, eq_of_beq h2⟩
  simp only [hfil, List.isEmpty_nil, if_true]

/-- Characterization of Case 2a of `add_or_update_product`: the store has
products with this image but none with this URL — a sibling row is
inserted, classified `"updated"`, and every prior row is left untouched. -/
theorem aoup_sibling {s : DBState} {sn : String} {strow : StoreRow}
    (hpres : findStoreName s sn = some strow)
    (now : Nat) (n url img : String) (pj pe : Option ℚ) (a : Nat)
    (hsome : ∃ p ∈ s.products, p.image_url = img ∧ p.store_id = strow.id)
    (hnourl : ∀ p ∈ s.products, p.store_id = strow.id → p.image_url = img →
      p.product_url ≠ url) :
    add_or_update_product s now n url img pj pe a sn
      = ("updated", some ⟨s.nextProductId, n, url, img, pj, pe⟩,
         { s with
            products := s.products ++
              [⟨s.nextProductId, n, url, img, pj, pe, a, now, now, false, strow.id⟩],
            nextProductId := s.nextProductId + 1 }) := by
  unfold add_or_update_product
  rw [add_store_found hpres]
  obtain ⟨p0, hp0, hp0img, hp0sid⟩ := hsome
  have hp0fil : p0 ∈ s.products.filter
      (fun r => r.image_url == img && r.store_id == strow.id) :=
    List.mem_filter.mpr ⟨hp0, by
      rw [Bool.and_eq_true_iff]
      exact ⟨beq_iff_eq.mpr hp0img, beq_iff_eq.mpr hp0sid⟩⟩
  have hne : (s.products.filter
      (fun r => r.image_url == img && r.store_id == strow.id)).isEmpty = false :=
    List.isEmpty_eq_false.mpr (List.ne_nil_of_mem hp0fil)
  have hfind : (s.products.filter
      (fun r => r.image_url == img && r.store_id == strow.id)).find?
        (fun r => r.product_url == url) = none := by
    rw [List.find?_eq_none]
    intro x hx
    rcases List.mem_filter.mp hx with ⟨hxmem, hxb⟩
    rcases Bool.and_eq_true_iff.mp hxb with ⟨hximg, hxsid⟩
    have := hnourl x hxmem (eq_of_beq hxsid) (eq_of_beq hximg)
    rw [beq_eq_false_iff_ne.mpr this]
    exact Bool.false_ne_true
  simp only [hne, Bool.false_eq_true, if_false, hfind]

/-- Characterization of Case 2b of `add_or_update_product`: an exact
image+URL match exists — the upsert is a silent in-place refresh, the
status is `""` and no product dict is returned. -/
theorem aoup_silent {s : DBState} {sn : String} {strow : StoreRow}
    (hpres : findStoreName s sn = some strow)
    (now : Nat) (n url img : String) (pj pe : Option ℚ) (a : Nat)
    (hrow : hasRow s strow.id img url) :
    ∃ s', add_or_update_product s now n url img pj pe a sn = ("", none, s') := by
  unfold add_or_update_product
  rw [add_store_found hpres]
  obtain ⟨r0, hr0, hr0sid, hr0img, hr0url⟩ := hrow
  have hr0fil : r0 ∈ s.products.filter
      (fun r => r.image_url == img && r.store_id == strow.id) :=
    List.mem_filter.mpr ⟨hr0, by
      rw [Bool.and_eq_true_iff]
      exact ⟨beq_iff_eq.mpr hr0img, beq_iff_eq.mpr hr0sid⟩⟩
  have hne : (s.products.filter
      (fun r => r.image_url == img && r.store_id == strow.id)).isEmpty = false :=
    List.isEmpty_eq_false.mpr (List.ne_nil_of_mem hr0fil)
  have hfind : (s.products.filter
      (fun r => r.image_url == img && r.store_id == strow.id)).find?
        (fun r => r.product_url == url) ≠ none := by
    intro hnone
    rw [List.find?_eq_none] at hnone
    exact hnone r0 hr0fil (by rw [beq_iff_eq.mpr hr0url])
  rcases Option.ne_none_iff_exists'.mp hfind with ⟨m, hm⟩
  simp only [hne, Bool.false_eq_true, if_false, hm]
  exact ⟨_, rfl⟩

/-- `add_or_update_product` never touches the `Store` table when the store
already exists. -/
theorem aoup_stores {s : DBState} {sn : String} {strow : StoreRow}
    (hpres : findStoreName s sn = some strow)
    (now : Nat) (n url img : String) (pj pe : Option ℚ) (a : Nat) :
    (add_or_update_product s now n url img pj pe a sn).2.2.stores = s.stores := by
  unfold add_or_update_product
  rw [add_store_found hpres]
  simp only
  split
  · rfl
  · split <;> rfl

/-- Rows present before an upsert keep their identity (store, image, URL)
afterwards: inserts append, and the in-place refresh only touches prices,
archived and `last_seen`. -/
theorem aoup_hasRow_mono {s : DBState} {sn : String} {strow : StoreRow}
    (hpres : findStoreName s sn = some strow)
    (now : Nat) (n url img : String) (pj pe : Option ℚ) (a : Nat)
    {sid : Nat} {img0 url0 : String} (hrow : hasRow s sid img0 url0) :
    hasRow (add_or_update_product s now n url img pj pe a sn).2.2 sid img0 url0 := by
  obtain ⟨r0, hr0, hkeys⟩ := hrow
  unfold add_or_update_product
  rw [add_store_found hpres]
  simp only
  split
  · exact ⟨r0, List.mem_append_left _ hr0, hkeys⟩
  · split
    · exact ⟨r0, List.mem_append_left _ hr0, hkeys⟩
    · refine ⟨refreshRow _ pj pe a now r0, List.mem_map.mpr ⟨r0, hr0, rfl⟩, ?_⟩
      rw [refreshRow_store_id, refreshRow_image_url, refreshRow_product_url]
      exact hkeys

/-- After `add_or_update_product`, a row of the store with the submitted
image and URL exists (it is inserted in Cases 1/2a and refreshed in place
in Case 2b). -/
theorem aoup_hasRow_post {s : DBState} {sn : String} {strow : StoreRow}
    (hpres : findStoreName s sn = some strow)
    (now : Nat) (n url img : String) (pj pe : Option ℚ) (a : Nat) :
    hasRow (add_or_update_product s now n url img pj pe a sn).2.2 strow.id img url := by
  unfold add_or_update_product
  rw [add_store_found hpres]
  simp only
  split
  · exact ⟨_, List.mem_append_right _ (List.mem_singleton.mpr rfl), rfl, rfl, rfl⟩
  · split
    · exact ⟨_, List.mem_append_right _ (List.mem_singleton.mpr rfl), rfl, rfl, rfl⟩
    · rename_i db_ne m hm
      have hmfil := List.mem_of_find?_eq_some hm
      rcases List.mem_filter.mp hmfil with ⟨hmmem, hmb⟩
      rcases Bool.and_eq_true_iff.mp hmb with ⟨hmimg, hmsid⟩
      have hmurl : m.product_url = url := by
        have hb := List.find?_some hm
        simpa using hb
      refine ⟨refreshRow m.id pj pe a now m, List.mem_map.mpr ⟨m, hmmem, rfl⟩, ?_⟩
      rw [refreshRow_store_id, refreshRow_image_url, refreshRow_product_url]
      exact ⟨eq_of_beq hmsid, eq_of_beq hmimg, hmurl⟩

/-- One sync iteration, expressed through the outcome of its upsert. -/
theorem syncStep_of_upsert {st : DBState} {now : Nat} {sn : String} {item : ItemIn}
    {u : String} {v : Option ProductOut} {w : DBState}
    (h : add_or_update_product st now (normName item) (normUrl item) (normImg item)
      item.price_jpy item.price_eur (if item.archived then 1 else 0) sn = (u, v, w))
    (flag : Bool) (a b : List ProductOut) :
    syncStep now sn flag (a, b, st) item =
      match v with
      | some p =>
        if u == "new" && !flag then (a ++ [p], b, w)
        else if u == "updated" && !flag then (a, b ++ [p], w)
        else (a, b, w)
      | none => (a, b, w) := by
  simp only [syncStep, h]
  cases v <;> rfl

/-- Whatever the upsert classified, one sync iteration carries the upsert's
result state in its third component. -/
theorem syncStep_state_eq {st : DBState} {now : Nat} {sn : String} {item : ItemIn}
    {u : String} {v : Option ProductOut} {w : DBState}
    (h : add_or_update_product st now (normName item) (normUrl item) (normImg item)
      item.price_jpy item.price_eur (if item.archived then 1 else 0) sn = (u, v, w))
    (flag : Bool) (a b : List ProductOut) :
    ∃ a' b', syncStep now sn flag (a, b, st) item = (a', b', w) := by
  rw [syncStep_of_upsert h flag a b]
  cases v with
  | some p =>
    by_cases h1 : (u == "new" && !flag) = true
    · exact ⟨a ++ [p], b, by simp [h1]⟩
    · by_cases h2 : (u == "updated" && !flag) = true
      · refine ⟨a, b ++ [p], ?_⟩
        simp only [Bool.not_eq_true] at h1
        simp [h1, h2]
      · refine ⟨a, b, ?_⟩
        simp only [Bool.not_eq_true] at h1 h2
        simp [h1, h2]
  | none => exact ⟨a, b, rfl⟩

/-- The item loop never touches the `Store` table when the store exists. -/
theorem fold_stores {sn : String} {r : StoreRow} (now : Nat) (flag : Bool) :
    ∀ (items : List ItemIn) (a b : List ProductOut) (st : DBState),
      findStoreName st sn = some r →
      ((items.foldl (syncStep now sn flag) (a, b, st)).2.2).stores = st.stores := by
  intro items
  induction items with
  | nil => intro a b st _; rfl
  | cons i t ih =>
    intro a b st hpres
    rcases haoup : add_or_update_product st now (normName i) (normUrl i) (normImg i)
      i.price_jpy i.price_eur (if i.archived then 1 else 0) sn with ⟨u, v, w⟩
    have hw : w.stores = st.stores := by
      have := aoup_stores hpres now (normName i) (normUrl i) (normImg i)
        i.price_jpy i.price_eur (if i.archived then 1 else 0)
      rw [haoup] at this
      exact this
    have hpres' : findStoreName w sn = some r := by
      unfold findStoreName at hpres ⊢
      rw [hw]
      exact hpres
    obtain ⟨a', b', hstep⟩ := syncStep_state_eq haoup flag a b
    rw [List.foldl_cons, hstep, ih a' b' w hpres', hw]

/-- Rows keep their (store, image, URL) identity through the item loop. -/
theorem fold_hasRow_mono {sn : String} {r : StoreRow} (now : Nat) (flag : Bool) :
    ∀ (items : List ItemIn) (a b : List ProductOut) (st : DBState),
      findStoreName st sn = some r →
      ∀ {sid : Nat} {img0 url0 : String}, hasRow st sid img0 url0 →
      hasRow ((items.foldl (syncStep now sn flag) (a, b, st)).2.2) sid img0 url0 := by
  intro items
  induction items with
  | nil => intro a b st _ sid img0 url0 hrow; exact hrow
  | cons i t ih =>
    intro a b st hpres sid img0 url0 hrow
    rcases haoup : add_or_update_product st now (normName i) (normUrl i) (normImg i)
      i.price_jpy i.price_eur (if i.archived then 1 else 0) sn with ⟨u, v, w⟩
    have hw : w.stores = st.stores := by
      have := aoup_stores hpres now (normName i) (normUrl i) (normImg i)
        i.price_jpy i.price_eur (if i.archived then 1 else 0)
      rw [haoup] at this
      exact this
    have hpres' : findStoreName w sn = some r := by
      unfold findStoreName at hpres ⊢
      rw [hw]
      exact hpres
    have hroww : hasRow w sid img0 url0 := by
      have := aoup_hasRow_mono hpres now (normName i) (normUrl i) (normImg i)
        i.price_jpy i.price_eur (if i.archived then 1 else 0) hrow
      rw [haoup] at this
      exact this
    obtain ⟨a', b', hstep⟩ := syncStep_state_eq haoup flag a b
    rw [List.foldl_cons, hstep]
    exact ih a' b' w hpres' hroww

/-- After the item loop, every processed item has a persisted row of the
store carrying its normalized image and URL. -/
theorem fold_hasRow_post {sn : String} {r : StoreRow} (now : Nat) (flag : Bool) :
    ∀ (items : List ItemIn) (a b : List ProductOut) (st : DBState),
      findStoreName st sn = some r →
      ∀ i ∈ items,
        hasRow ((items.foldl (syncStep now sn flag) (a, b, st)).2.2) r.id
          (normImg i) (normUrl i) := by
  intro items
  induction items with
  | nil => intro a b st _ i hi; cases hi
  | cons j t ih =>
    intro a b st hpres i hi
    rcases haoup : add_or_update_product st now (normName j) (normUrl j) (normImg j)
      j.price_jpy j.price_eur (if j.archived then 1 else 0) sn with ⟨u, v, w⟩
    have hw : w.stores = st.stores := by
      have := aoup_stores hpres now (normName j) (normUrl j) (normImg j)
        j.price_jpy j.price_eur (if j.archived then 1 else 0)
      rw [haoup] at this
      exact this
    have hpres' : findStoreName w sn = some r := by
      unfold findStoreName at hpres ⊢
      rw [hw]
      exact hpres
    obtain ⟨a', b', hstep⟩ := syncStep_state_eq haoup flag a b
    rw [List.foldl_cons, hstep]
    rcases List.mem_cons.mp hi with h | h
    · subst h
      have hpost : hasRow w r.id (normImg i) (normUrl i) := by
        have := aoup_hasRow_post hpres now (normName i) (normUrl i) (normImg i)
          i.price_jpy i.price_eur (if i.archived then 1 else 0)
        rw [haoup] at this
        exact this
      exact fold_hasRow_mono now flag t a' b' w hpres' hpost
    · exact ih a' b' w hpres' i h

/-- When every submitted item already has an exact image+URL row, the item
loop classifies everything as a silent refresh and accumulates nothing. -/
theorem fold_silent {sn : String} {r : StoreRow} (now : Nat) (flag : Bool) :
    ∀ (items : List ItemIn) (a b : List ProductOut) (st : DBState),
      findStoreName st sn = some r →
      (∀ i ∈ items, hasRow st r.id (normImg i) (normUrl i)) →
      ∃ st', items.foldl (syncStep now sn flag) (a, b, st) = (a, b, st') := by
  intro items
  induction items with
  | nil => intro a b st _ _; exact ⟨st, rfl⟩
  | cons i t ih =>
    intro a b st hpres hall
    obtain ⟨w, haoup⟩ := aoup_silent hpres now (normName i) (normUrl i) (normImg i)
      i.price_jpy i.price_eur (if i.archived then 1 else 0)
      (hall i (List.mem_cons_self i t))
    have hw : w.stores = st.stores := by
      have := aoup_stores hpres now (normName i) (normUrl i) (normImg i)
        i.price_jpy i.price_eur (if i.archived then 1 else 0)
      rw [haoup] at this
      exact this
    have hpres' : findStoreName w sn = some r := by
      unfold findStoreName at hpres ⊢
      rw [hw]
      exact hpres
    have hallw : ∀ j ∈ t, hasRow w r.id (normImg j) (normUrl j) := by
      intro j hj
      have := aoup_hasRow_mono hpres now (normName i) (normUrl i) (normImg i)
        i.price_jpy i.price_eur (if i.archived then 1 else 0)
        (hall j (List.mem_cons_of_mem i hj))
      rw [haoup] at this
      exact this
    have hstep : syncStep now sn flag (a, b, st) i = (a, b, w) := by
      rw [syncStep_of_upsert haoup flag a b]
    rw [List.foldl_cons, hstep]
    exact ih a b w hpres' hallw

/-- On the first crawl (`initial_fetch` was NULL) the item loop accumulates
nothing, whatever the per-item classifications are. -/
theorem fold_initial_acc (now : Nat) (sn : String) :
    ∀ (items : List ItemIn) (a b : List ProductOut) (st : DBState),
      ∃ st', items.foldl (syncStep now sn true) (a, b, st) = (a, b, st') := by
  intro items
  induction items with
  | nil => intro a b st; exact ⟨st, rfl⟩
  | cons i t ih =>
    intro a b st
    rcases haoup : add_or_update_product st now (normName i) (normUrl i) (normImg i)
      i.price_jpy i.price_eur (if i.archived then 1 else 0) sn with ⟨u, v, w⟩
    have hstep : syncStep now sn true (a, b, st) i = (a, b, w) := by
      rw [syncStep_of_upsert haoup true a b]
      cases v with
      | some p => simp
      | none => rfl
    rw [List.foldl_cons, hstep]
    exact ih a b w

theorem setInitialFetch_name (store_id now : Nat) (r : StoreRow) :
    (setInitialFetch store_id now r).name = r.name := by
  unfold setInitialFetch; split <;> rfl

/-- Unfolding of `sync_store_products` for a store that exists and has
already completed its first crawl: no `initial_fetch` update happens and
the item loop runs with notifications enabled. -/
theorem sync_not_initial_eq {s : DBState} {sn : String} {r : StoreRow} {t : Nat}
    (hpres : findStoreName s sn = some r)
    (hnodup : (s.stores.map StoreRow.id).Nodup)
    (hif : r.initial_fetch = some t)
    (now : Nat) (items : List ItemIn) :
    sync_store_products s now sn items
      = items.foldl (syncStep now sn false) ([], [], s) := by
  have hmem : r ∈ s.stores := List.mem_of_find?_eq_some hpres
  have hflag : initialFetchIsNull s r.id = false := by
    unfold initialFetchIsNull
    rw [find_by_id_of_nodup hnodup hmem]
    show r.initial_fetch.isNone = false
    rw [hif]
    rfl
  unfold sync_store_products
  rw [add_store_found hpres]
  simp only [hflag, Bool.false_eq_true, if_false]

/-- Unfolding of `sync_store_products` for an existing store whose
`initial_fetch` is still NULL: the flag is set to `now` and the item loop
runs suppressed. -/
theorem sync_initial_present_eq {s : DBState} {sn : String} {r : StoreRow}
    (hpres : findStoreName s sn = some r)
    (hnodup : (s.stores.map StoreRow.id).Nodup)
    (hif : r.initial_fetch = none)
    (now : Nat) (items : List ItemIn) :
    sync_store_products s now sn items
      = items.foldl (syncStep now sn true)
          ([], [], { s with stores := s.stores.map (setInitialFetch r.id now) }) := by
  have hmem : r ∈ s.stores := List.mem_of_find?_eq_some hpres
  have hflag : initialFetchIsNull s r.id = true := by
    unfold initialFetchIsNull
    rw [find_by_id_of_nodup hnodup hmem]
    show r.initial_fetch.isNone = true
    rw [hif]
    rfl
  unfold sync_store_products
  rw [add_store_found hpres]
  simp only [hflag, if_true]

/-- Unfolding of `sync_store_products` when the store does not exist yet
(assuming the AUTOINCREMENT freshness of `nextStoreId`): the store row is
created, its `initial_fetch` set to `now`, and the item loop runs
suppressed. -/
theorem sync_initial_absent_eq {s : DBState} {sn : String}
    (habs : findStoreName s sn = none)
    (hfresh : ∀ x ∈ s.stores, x.id < s.nextStoreId)
    (now : Nat) (items : List ItemIn) :
    sync_store_products s now sn items
      = items.foldl (syncStep now sn true)
          ([], [],
           { stores := (s.stores ++ [(⟨s.nextStoreId, sn, none⟩ : StoreRow)]).map
               (setInitialFetch s.nextStoreId now),
             products := s.products,
             nextStoreId := s.nextStoreId + 1,
             nextProductId := s.nextProductId }) := by
  have hadd : add_store s sn
      = (s.nextStoreId,
         { s with stores := s.stores ++ [(⟨s.nextStoreId, sn, none⟩ : StoreRow)],
                  nextStoreId := s.nextStoreId + 1 }) := by
    unfold add_store
    rw [habs]
  have hflag : initialFetchIsNull
      { s with stores := s.stores ++ [(⟨s.nextStoreId, sn, none⟩ : StoreRow)],
               nextStoreId := s.nextStoreId + 1 } s.nextStoreId = true := by
    unfold initialFetchIsNull
    simp only [List.find?_append]
    have hold : s.stores.find? (fun x => x.id == s.nextStoreId) = none := by
      rw [List.find?_eq_none]
      intro x hx
      have : x.id ≠ s.nextStoreId := Nat.ne_of_lt (hfresh x hx)
      rw [beq_eq_false_iff_ne.mpr this]
      exact Bool.false_ne_true
    rw [hold]
    simp [List.find?]
  unfold sync_store_products
  rw [hadd]
  simp only [hflag, if_true]

/-- C3: syncing the identical item list twice in immediate succession, for
a store already past its first crawl (and with the primary-key invariant on
store ids), yields empty `new` and `updated` lists from the second call:
every item of the second call finds its exact image+URL row persisted by
the first call and is classified as a silent refresh. -/
theorem sync_idempotent_second_call (s : DBState) (now1 now2 : Nat) (sn : String)
    (r : StoreRow) (t : Nat) (L : List ItemIn)
    (hpres : findStoreName s sn = some r)
    (hWF : storesWF s)
    (hif : r.initial_fetch = some t) :
    (sync_store_products ((sync_store_products s now1 sn L).2.2) now2 sn L).1 = []
    ∧ (sync_store_products ((sync_store_products s now1 sn L).2.2) now2 sn L).2.1 = [] := by
  have hnodup := hWF.1
  have hs1eq := sync_not_initial_eq hpres hnodup hif now1 L
  set s1 := (sync_store_products s now1 sn L).2.2 with hs1def
  have hs1stores : s1.stores = s.stores := by
    rw [hs1def, hs1eq]
    exact fold_stores now1 false L [] [] s hpres
  have hpres1 : findStoreName s1 sn = some r := by
    unfold findStoreName at hpres ⊢
    rw [hs1stores]
    exact hpres
  have hnodup1 : (s1.stores.map StoreRow.id).Nodup := by
    rw [hs1stores]
    exact hnodup
  have hall : ∀ i ∈ L, hasRow s1 r.id (normImg i) (normUrl i) := by
    intro i hi
    rw [hs1def, hs1eq]
    exact fold_hasRow_post now1 false L [] [] s hpres i hi
  have hs2eq := sync_not_initial_eq hpres1 hnodup1 hif now2 L
  obtain ⟨st', hfold⟩ := fold_silent now2 false L [] [] s1 hpres1 hall
  rw [hs2eq, hfold]
  exact ⟨rfl, rfl⟩

/-- C3 witness: a store `"shop"` past its first crawl holding no products;
syncing the same single-item list twice gives empty results on the second
call. -/
theorem sync_idempotent_second_call_witness :
    (sync_store_products
        ((sync_store_products
            ⟨[⟨1, "shop", some 7⟩], [], 2, 1⟩ 10 "shop"
            [⟨"tee", "http://a/p1", some "http://a/i1.jpg", some 100, none, false⟩]).2.2)
        11 "shop"
        [⟨"tee", "http://a/p1", some "http://a/i1.jpg", some 100, none, false⟩]).1 = []
    ∧ (sync_store_products
        ((sync_store_products
            ⟨[⟨1, "shop", some 7⟩], [], 2, 1⟩ 10 "shop"
            [⟨"tee", "http://a/p1", some "http://a/i1.jpg", some 100, none, false⟩]).2.2)
        11 "shop"
        [⟨"tee", "http://a/p1", some "http://a/i1.jpg", some 100, none, false⟩]).2.1 = [] :=
  sync_idempotent_second_call ⟨[⟨1, "shop", some 7⟩], [], 2, 1⟩ 10 11 "shop"
    ⟨1, "shop", some 7⟩ 7
    [⟨"tee", "http://a/p1", some "http://a/i1.jpg", some 100, none, false⟩]
    (by rfl) ⟨by decide, by decide⟩ rfl

/-- "First ever `sync_store_products` call for this store": either the
store row does not exist yet, or it exists with `initial_fetch` NULL. -/
def storeFresh (s : DBState) (sn : String) : Prop :=
  match findStoreName s sn with
  | none => True
  | some r => r.initial_fetch = none

/-- C5: the first ever `sync_store_products` call for a store returns empty
`new` and `updated` lists regardless of the items passed, and sets the
store's `initial_fetch` timestamp to the call's time. -/
theorem first_crawl_suppression (s : DBState) (now : Nat) (sn : String)
    (items : List ItemIn) (hWF : storesWF s) (hfresh : storeFresh s sn) :
    (sync_store_products s now sn items).1 = []
    ∧ (sync_store_products s now sn items).2.1 = []
    ∧ ∃ r', findStoreName ((sync_store_products s now sn items).2.2) sn = some r'
        ∧ r'.initial_fetch = some now := by
  have hnamepres : ∀ a : StoreRow, ∀ sid now',
      ((setInitialFetch sid now' a).name == sn) = (a.name == sn) := by
    intro a sid now'
    rw [setInitialFetch_name]
  cases hlook : findStoreName s sn with
  | some r =>
    have hif : r.initial_fetch = none := by
      unfold storeFresh at hfresh
      rw [hlook] at hfresh
      exact hfresh
    have heq := sync_initial_present_eq hlook hWF.1 hif now items
    obtain ⟨st', hfold⟩ := fold_initial_acc now sn items [] []
      { s with stores := s.stores.map (setInitialFetch r.id now) }
    have hpres2 : findStoreName
        { s with stores := s.stores.map (setInitialFetch r.id now) } sn
          = some (setInitialFetch r.id now r) := by
      unfold findStoreName
      simp only
      rw [find?_map_of_pred_inv (setInitialFetch r.id now) (fun x => x.name == sn)
        (fun a => hnamepres a r.id now) s.stores]
      unfold findStoreName at hlook
      rw [hlook]
      rfl
    have hstores := fold_stores now true items [] []
      { s with stores := s.stores.map (setInitialFetch r.id now) } hpres2
    rw [heq, hfold]
    rw [hfold] at hstores
    refine ⟨rfl, rfl, setInitialFetch r.id now r, ?_, ?_⟩
    · unfold findStoreName at hpres2 ⊢
      rw [hstores]
      exact hpres2
    · unfold setInitialFetch
      rw [beq_self_eq_true]
      rfl
  | none =>
    have heq := sync_initial_absent_eq hlook hWF.2 now items
    obtain ⟨st', hfold⟩ := fold_initial_acc now sn items [] []
      { stores := (s.stores ++ [(⟨s.nextStoreId, sn, none⟩ : StoreRow)]).map
          (setInitialFetch s.nextStoreId now),
        products := s.products,
        nextStoreId := s.nextStoreId + 1,
        nextProductId := s.nextProductId }
    have hpres2 : findStoreName
        { stores := (s.stores ++ [(⟨s.nextStoreId, sn, none⟩ : StoreRow)]).map
            (setInitialFetch s.nextStoreId now),
          products := s.products,
          nextStoreId := s.nextStoreId + 1,
          nextProductId := s.nextProductId } sn
          = some (setInitialFetch s.nextStoreId now ⟨s.nextStoreId, sn, none⟩) := by
      unfold findStoreName
      simp only
      rw [find?_map_of_pred_inv (setInitialFetch s.nextStoreId now) (fun x => x.name == sn)
        (fun a => hnamepres a s.nextStoreId now) _]
      rw [List.find?_append]
      unfold findStoreName at hlook
      rw [hlook]
      simp [List.find?]
    have hstores := fold_stores now true items [] [] _ hpres2
    rw [heq, hfold]
    rw [hfold] at hstores
    refine ⟨rfl, rfl, setInitialFetch s.nextStoreId now ⟨s.nextStoreId, sn, none⟩, ?_, ?_⟩
    · unfold findStoreName at hpres2 ⊢
      rw [hstores]
      exact hpres2
    · unfold setInitialFetch
      rw [beq_self_eq_true]
      rfl

/-- C5 witness: syncing two items into an empty database creates the store,
returns empty lists, and stamps `initial_fetch`. -/
theorem first_crawl_suppression_witness :
    (sync_store_products ⟨[], [], 1, 1⟩ 9 "shop"
        [⟨"a", "http://x/1", some "http://x/i1", some 100, none, false⟩,
         ⟨"b", "http://x/2", some "http://x/i2", none, some 5, true⟩]).1 = []
    ∧ (sync_store_products ⟨[], [], 1, 1⟩ 9 "shop"
        [⟨"a", "http://x/1", some "http://x/i1", some 100, none, false⟩,
         ⟨"b", "http://x/2", some "http://x/i2", none, some 5, true⟩]).2.1 = []
    ∧ ∃ r', findStoreName ((sync_store_products ⟨[], [], 1, 1⟩ 9 "shop"
        [⟨"a", "http://x/1", some "http://x/i1", some 100, none, false⟩,
         ⟨"b", "http://x/2", some "http://x/i2", none, some 5, true⟩]).2.2) "shop" = some r'
        ∧ r'.initial_fetch = some 9 :=
  first_crawl_suppression ⟨[], [], 1, 1⟩ 9 "shop"
    [⟨"a", "http://x/1", some "http://x/i1", some 100, none, false⟩,
     ⟨"b", "http://x/2", some "http://x/i2", none, some 5, true⟩]
    ⟨by decide, by decide⟩ (by unfold storeFresh findStoreName; exact trivial)

/-- C4 counterexample state: store `"shop"` already persists BOTH a row
with (image `"I"`, URL `"A"`) and a sibling row with (image `"I"`, URL
`"B"`) — exactly the state the sibling feature itself produces. -/
def c4State : DBState :=
  ⟨[⟨1, "shop", some 0⟩],
   [⟨1, "pA", "A", "I", none, none, 0, 0, 0, false, 1⟩,
    ⟨2, "pB", "B", "I", none, none, 0, 0, 0, false, 1⟩], 2, 3⟩

/-- C4 counterexample: `c4State` holds a persisted product with image `"I"`
and URL `"A"`, and `"B" ≠ "A"`, yet submitting an item with image `"I"` and
URL `"B"` does **not** insert a second row nor classify `"updated"`: the
existing `(I, B)` row makes Case 2b fire — a silent in-place refresh. -/
theorem sibling_on_shared_image_counterexample :
    (∃ r ∈ c4State.products, r.image_url = "I" ∧ r.product_url = "A")
    ∧ ("B" : String) ≠ "A"
    ∧ (add_or_update_product c4State 5 "pB" "B" "I" none none 0 "shop").1 ≠ "updated"
    ∧ ((add_or_update_product c4State 5 "pB" "B" "I" none none 0 "shop").2.2).products.length
        = c4State.products.length := by
  refine ⟨⟨⟨1, "pA", "A", "I", none, none, 0, 0, 0, false, 1⟩, by decide, by decide⟩, ?_, ?_, ?_⟩
  · decide
  · decide
  · decide

/-- C4 (amended): if the store persists a product with image `I` and URL
`A`, the submitted URL `B` differs from `A`, **and no row with image `I`
and URL `B` exists yet**, then the upsert inserts a second persisted row
(same image, new identity), classifies it `"updated"`, and leaves every
pre-existing row — in particular the row for `A` — byte-for-byte
unchanged (the product list is the old list with one row appended). -/
theorem sibling_on_shared_image (s : DBState) (now : Nat) (n A B I : String)
    (pj pe : Option ℚ) (a : Nat) (sn : String) (strow : StoreRow) (r0 : ProductRow)
    (hpres : findStoreName s sn = some strow)
    (hr0 : r0 ∈ s.products) (hr0sid : r0.store_id = strow.id)
    (hr0img : r0.image_url = I) (hr0url : r0.product_url = A)
    (hBA : B ≠ A)
    (hnoB : ∀ p ∈ s.products, p.store_id = strow.id → p.image_url = I →
      p.product_url ≠ B) :
    add_or_update_product s now n B I pj pe a sn
      = ("updated", some ⟨s.nextProductId, n, B, I, pj, pe⟩,
         { s with
            products := s.products ++
              [⟨s.nextProductId, n, B, I, pj, pe, a, now, now, false, strow.id⟩],
            nextProductId := s.nextProductId + 1 }) :=
  aoup_sibling hpres now n B I pj pe a ⟨r0, hr0, hr0img, hr0sid⟩ hnoB

/-- C4 witness: a store persisting exactly one product, with image `"I"`
and URL `"A"`; submitting URL `"B"` with the same image appends the sibling
row and reports `"updated"`. -/
theorem sibling_on_shared_image_witness :
    add_or_update_product
        ⟨[⟨1, "shop", some 0⟩], [⟨1, "pA", "A", "I", none, none, 0, 0, 0, false, 1⟩], 2, 2⟩
        5 "pB" "B" "I" none none 0 "shop"
      = ("updated", some ⟨2, "pB", "B", "I", none, none⟩,
         ⟨[⟨1, "shop", some 0⟩],
          [⟨1, "pA", "A", "I", none, none, 0, 0, 0, false, 1⟩,
           ⟨2, "pB", "B", "I", none, none, 0, 5, 5, false, 1⟩], 2, 3⟩) :=
  sibling_on_shared_image
    ⟨[⟨1, "shop", some 0⟩], [⟨1, "pA", "A", "I", none, none, 0, 0, 0, false, 1⟩], 2, 2⟩
    5 "pB" "A" "B" "I" none none 0 "shop" ⟨1, "shop", some 0⟩
    ⟨1, "pA", "A", "I", none, none, 0, 0, 0, false, 1⟩
    (by rfl) (by decide) (by decide) (by decide) (by decide) (by decide)
    (by decide)

/-! ## Item extraction (`extract_items_by_config`, data_extractor.py lines 53-134)

Parsing HTML is abstracted away: a `ContainerSel` holds, for one item
container, what the CSS selectors of the store configuration resolved —
the name tag's text, the link tag's `href`, the image tag's `src`, the
price tags' texts, and whether the sold-out selector matched the container
or a descendant. -/

structure ContainerSel where
  nameText : Option String
  linkHref : Option String
  imageSrc : Option String
  jpyText : Option String
  eurText : Option String
  soldOut : Bool
deriving Repr, DecidableEq

/-- Python truthiness of an `Optional[str]`: `None` and `""` are falsy. -/
def pyTruthyOptStr : Option String → Bool
  | none => false
  | some s => !s.isEmpty

/-- One container of `extract_items_by_config`: strip the name, absolutize
the link against `site_main_url` unless it already starts with `"http"`,
parse at most one price per currency, and keep the candidate only if name,
URL and at least one price are truthy.  The image URL is passed through as
extracted — possibly `None`; an image is *not* required. -/
def extractItem (siteMainUrl : String) (c : ContainerSel) : Option ItemIn :=
  let name : Option String := c.nameText.map pyStrip
  let product_url : Option String :=
    match c.linkHref with
    | none => none
    | some l =>
      if !l.isEmpty && !(l.startsWith "http") then some (siteMainUrl ++ l) else some l
  let pj := c.jpyText.bind parseJPY
  let pe := c.eurText.bind parseEUR
  if pyTruthyOptStr name && pyTruthyOptStr product_url && (pj.isSome || pe.isSome) then
    some ⟨name.getD "", product_url.getD "", c.imageSrc, pj, pe, c.soldOut⟩
  else none

/-- `extract_items_by_config` over the selected containers of one page. -/
def extract_items_by_config (siteMainUrl : String) (cs : List ContainerSel) :
    List ItemIn :=
  cs.filterMap (extractItem siteMainUrl)

theorem opt_if_eq_some {α : Type} {c : Prop} [Decidable c] {x y : α}
    (h : (if c then some x else none) = some y) : x = y := by
  split at h
  · exact Option.some.inj h
  · cases h

theorem extractItem_image_passthrough (site : String) (c : ContainerSel) (it : ItemIn)
    (h : extractItem site c = some it) : it.image_url = c.imageSrc := by
  have h2 := opt_if_eq_some h
  rw [← h2]

/-- C10: candidate items without an image are kept by the extractor with
`image_url` `None` (the image passes through unchanged and is not part of
the keep condition), and `sync_store_products` coerces a missing image to
the literal string `"None"` via `str(item.get("image_url", ""))`; hence,
for a store past its first crawl with no `"None"`-imaged rows yet, two
distinct imageless items in one batch collide on the fake image `"None"`:
the first is classified `"new"`, and the second is matched as its sibling
and classified `"updated"` rather than `"new"`. -/
theorem imageless_items_share_fake_image (s : DBState) (now : Nat) (sn : String)
    (r : StoreRow) (t : Nat) (i1 i2 : ItemIn)
    (hpres : findStoreName s sn = some r)
    (hWF : storesWF s)
    (hif : r.initial_fetch = some t)
    (h1 : i1.image_url = none) (h2 : i2.image_url = none)
    (hurl : normUrl i1 ≠ normUrl i2)
    (hno : ∀ p ∈ s.products, p.store_id = r.id → p.image_url ≠ "None") :
    (∀ site c it, extractItem site c = some it → it.image_url = c.imageSrc)
    ∧ normImg i1 = "None" ∧ normImg i2 = "None"
    ∧ ∃ p1 p2 s', sync_store_products s now sn [i1, i2] = ([p1], [p2], s')
        ∧ p1.image_url = "None" ∧ p1.product_url = normUrl i1
        ∧ p2.image_url = "None" ∧ p2.product_url = normUrl i2 := by
  have hImg1 : normImg i1 = "None" := by unfold normImg; rw [h1]; rfl
  have hImg2 : normImg i2 = "None" := by unfold normImg; rw [h2]; rfl
  refine ⟨extractItem_image_passthrough, hImg1, hImg2, ?_⟩
  have heq := sync_not_initial_eq hpres hWF.1 hif now [i1, i2]
  -- first item: Case 1, "new"
  have haoup1 : add_or_update_product s now (normName i1) (normUrl i1) (normImg i1)
      i1.price_jpy i1.price_eur (if i1.archived then 1 else 0) sn
      = ("new", some ⟨s.nextProductId, normName i1, normUrl i1, normImg i1,
          i1.price_jpy, i1.price_eur⟩,
         { s with
            products := s.products ++
              [⟨s.nextProductId, normName i1, normUrl i1, normImg i1,
                i1.price_jpy, i1.price_eur, (if i1.archived then 1 else 0),
                now, now, false, r.id⟩],
            nextProductId := s.nextProductId + 1 }) := by
    refine aoup_new hpres now (normName i1) (normUrl i1) (normImg i1)
      i1.price_jpy i1.price_eur (if i1.archived then 1 else 0) ?_
    intro p hp hcontra
    rw [hImg1] at hcontra
    exact hno p hp hcontra.2 hcontra.1
  have hstep1 : syncStep now sn false ([], [], s) i1
      = ([⟨s.nextProductId, normName i1, normUrl i1, normImg i1,
            i1.price_jpy, i1.price_eur⟩], [],
         { s with
            products := s.products ++
              [⟨s.nextProductId, normName i1, normUrl i1, normImg i1,
                i1.price_jpy, i1.price_eur, (if i1.archived then 1 else 0),
                now, now, false, r.id⟩],
            nextProductId := s.nextProductId + 1 }) := by
    rw [syncStep_of_upsert haoup1 false [] []]
    simp
  set sA : DBState :=
    { s with
        products := s.products ++
          [⟨s.nextProductId, normName i1, normUrl i1, normImg i1,
            i1.price_jpy, i1.price_eur, (if i1.archived then 1 else 0),
            now, now, false, r.id⟩],
        nextProductId := s.nextProductId + 1 } with hsA
  have hpresA : findStoreName sA sn = some r := hpres
  -- second item: Case 2a, "updated"
  have haoup2 : add_or_update_product sA now (normName i2) (normUrl i2) (normImg i2)
      i2.price_jpy i2.price_eur (if i2.archived then 1 else 0) sn
      = ("updated", some ⟨sA.nextProductId, normName i2, normUrl i2, normImg i2,
          i2.price_jpy, i2.price_eur⟩,
         { sA with
            products := sA.products ++
              [⟨sA.nextProductId, normName i2, normUrl i2, normImg i2,
                i2.price_jpy, i2.price_eur, (if i2.archived then 1 else 0),
                now, now, false, r.id⟩],
            nextProductId := sA.nextProductId + 1 }) := by
    rw [hImg2]
    refine aoup_sibling hpresA now (normName i2) (normUrl i2) "None"
      i2.price_jpy i2.price_eur (if i2.archived then 1 else 0) ?_ ?_
    · refine ⟨⟨s.nextProductId, normName i1, normUrl i1, normImg i1,
        i1.price_jpy, i1.price_eur, (if i1.archived then 1 else 0),
        now, now, false, r.id⟩, ?_, ?_, rfl⟩
      · rw [hsA]
        exact List.mem_append_right _ (List.mem_singleton.mpr rfl)
      · exact hImg1
    · intro p hp hsid hpimg
      rw [hsA] at hp
      rcases List.mem_append.mp hp with hmem | hmem
      · exact absurd hpimg (hno p hmem hsid)
      · rw [List.mem_singleton.mp hmem]
        exact hurl
  have hstep2 : syncStep now sn false
      ([⟨s.nextProductId, normName i1, normUrl i1, normImg i1,
          i1.price_jpy, i1.price_eur⟩], [], sA) i2
      = ([⟨s.nextProductId, normName i1, normUrl i1, normImg i1,
            i1.price_jpy, i1.price_eur⟩],
         [⟨sA.nextProductId, normName i2, normUrl i2, normImg i2,
            i2.price_jpy, i2.price_eur⟩],
         { sA with
            products := sA.products ++
              [⟨sA.nextProductId, normName i2, normUrl i2, normImg i2,
                i2.price_jpy, i2.price_eur, (if i2.archived then 1 else 0),
                now, now, false, r.id⟩],
            nextProductId := sA.nextProductId + 1 }) := by
    rw [syncStep_of_upsert haoup2 false _ []]
    simp
  rw [heq, List.foldl_cons, hstep1, List.foldl_cons, hstep2, List.foldl_nil]
  exact ⟨_, _, _, rfl, hImg1, rfl, hImg2, rfl⟩

/-- C10 witness: two concrete imageless items synced into a store past its
first crawl; the first comes back in the `new` list, the second in the
`updated` list, both with the coerced image `"None"`. -/
theorem imageless_items_share_fake_image_witness :
    (∀ site c it, extractItem site c = some it → it.image_url = c.imageSrc)
    ∧ normImg ⟨"a", "u1", none, some 100, none, false⟩ = "None"
    ∧ normImg ⟨"b", "u2", none, none, some 5, false⟩ = "None"
    ∧ ∃ p1 p2 s', sync_store_products ⟨[⟨1, "shop", some 3⟩], [], 2, 1⟩ 9 "shop"
          [⟨"a", "u1", none, some 100, none, false⟩,
           ⟨"b", "u2", none, none, some 5, false⟩] = ([p1], [p2], s')
        ∧ p1.image_url = "None"
        ∧ p1.product_url = normUrl ⟨"a", "u1", none, some 100, none, false⟩
        ∧ p2.image_url = "None"
        ∧ p2.product_url = normUrl ⟨"b", "u2", none, none, some 5, false⟩ :=
  imageless_items_share_fake_image ⟨[⟨1, "shop", some 3⟩], [], 2, 1⟩ 9 "shop"
    ⟨1, "shop", some 3⟩ 3
    ⟨"a", "u1", none, some 100, none, false⟩
    ⟨"b", "u2", none, none, some 5, false⟩
    (by rfl) ⟨by decide, by decide⟩ rfl rfl rfl (by decide)
    (by intro p hp; cases hp)

/-! ## The scheduler dispatch path (store_manager.py lines 116-158,
data_extractor.py lines 175-264)

`fetch_store_data` first drains the unsent backlog to the notifier, then
runs `main_program` (the crawl) and forwards the `new`/`updated` batches.
`process_items`, however, calls `db.update_and_archive_products(...)` — a
method `class StoreDatabase` does not define (its methods are listed in
`storeDatabaseMethodNames`, taken from store_database.py).  In Python the
attribute lookup raises `AttributeError`, the `except` in `process_items`
logs it and returns `[]`; back in `fetch_store_data`, the tuple unpack
`new_products, updated_products = result` of the empty list raises
`ValueError`, which its `except Exception` swallows — so no `"new"` or
`"updated"` notify call is ever made. -/

/-- The methods defined by `class StoreDatabase` (store_database.py). -/
def storeDatabaseMethodNames : List String :=
  ["__init__", "init_database", "close_connection", "add_store",
   "add_or_update_product", "get_stores", "get_products",
   "get_unsent_products", "sync_store_products",
   "mark_products_as_archived", "mark_product_as_sent",
   "delete_store", "delete_product"]

/-- The `prices` coercion of `get_unsent_products`: a stored price equal to
`0.0` is reported as `None` (`price if price != 0.0 else None`); a NULL
price stays `None`. -/
def unsentOut (r : ProductRow) : ProductOut :=
  ⟨r.id, r.name, r.product_url, r.image_url,
   (if r.price_jpy == some 0 then none else r.price_jpy),
   (if r.price_eur == some 0 then none else r.price_eur)⟩

/-- `StoreDatabase.get_unsent_products` (store_database.py lines 231-256):
`SELECT ... FROM Product WHERE is_sent = 0` — **no store filter**: the
backlog spans every store in the database. -/
def get_unsent_products (s : DBState) : List ProductOut :=
  (s.products.filter (fun r => r.is_sent == false)).map unsentOut

/-- `process_items` (data_extractor.py lines 175-190): dispatches to
`db.update_and_archive_products`.  The guard keeps the model honest: were
that attribute among `storeDatabaseMethodNames` the call would run a
method of the class (dead branch — there is none); since it is not, the
lookup raises `AttributeError`, the handler logs and returns `[]`, leaving
the database untouched. -/
def process_items (s : DBState) (store_name : String) (items : List ItemIn) :
    List ProductOut × DBState :=
  if storeDatabaseMethodNames.contains "update_and_archive_products" then
    ([], s)  -- unreachable: no such method exists to dispatch to
  else
    ([], s)  -- AttributeError caught by the except handler; returns []

/-- The per-store configuration fields the dispatch path reads. -/
structure StoreCfg where
  name : String
  name_format : String
deriving Repr, DecidableEq

/-- The value `main_program` returns to `fetch_store_data`: `[]` when the
crawl collected nothing, otherwise whatever `process_items` produced for
the collected items (`collected` abstracts the pagination loop's
accumulated `current_items`, as in the C8 model). -/
def main_program_result (s : DBState) (cfg : StoreCfg) (collected : List ItemIn) :
    List ProductOut × DBState :=
  if collected.isEmpty then ([], s) else process_items s cfg.name collected

/-- What one `send_new_items` call receives as its products argument: a
list of product dicts, or — in the (dead) branch where the tuple unpack of
`result` succeeds — a single product dict. -/
inductive SentPayload where
  | products (ps : List ProductOut)
  | product (p : ProductOut)
deriving Repr, DecidableEq

/-- One notify call made by the core: the store label, the payload, and
the batch kind argument (`"unsent"`, `"new"` or `"updated"`). -/
structure NotifyCall where
  label : String
  payload : SentPayload
  kind : String
deriving Repr, DecidableEq

/-- `StoreManager.fetch_store_data` (store_manager.py lines 124-158), as
the list of notify calls it makes: the unsent backlog is sent first (only
when non-empty — `fetch_unsent_products` maps an empty result to `None`);
then `new_products, updated_products = result` unpacks the list returned
by `main_program` — succeeding only for a two-element list (each element a
product dict, sent when truthy), and raising `ValueError` otherwise, which
the `except Exception` handler swallows, making no further calls. -/
def fetch_store_data_calls (s : DBState) (cfg : StoreCfg) (collected : List ItemIn) :
    List NotifyCall × DBState :=
  let unsent := get_unsent_products s
  let preCalls : List NotifyCall :=
    if unsent.isEmpty then []
    else [⟨cfg.name_format, SentPayload.products unsent, "unsent"⟩]
  let (result, s') := main_program_result s cfg collected
  match result with
  | [a, b] =>
    (preCalls ++ [⟨cfg.name_format, SentPayload.product a, "new"⟩,
                  ⟨cfg.name_format, SentPayload.product b, "updated"⟩], s')
  | _ => (preCalls, s')

/-- C1 (code bug): the reconciliation entry point the dispatch needs,
`update_and_archive_products`, is not among the methods of
`StoreDatabase` — only `sync_store_products` is; consequently
`main_program` always hands `[]` back to `fetch_store_data`, whose pair
unpack fails, and the dispatched task never makes a `"new"` or
`"updated"` notify call, contrary to the claimed forwarding of the
reconciled batches. -/
theorem scheduler_dispatch_never_forwards_batches :
    storeDatabaseMethodNames.contains "update_and_archive_products" = false
    ∧ storeDatabaseMethodNames.contains "sync_store_products" = true
    ∧ (∀ (s : DBState) (cfg : StoreCfg) (collected : List ItemIn),
        (main_program_result s cfg collected).1 = [])
    ∧ (∀ (s : DBState) (cfg : StoreCfg) (collected : List ItemIn),
        (fetch_store_data_calls s cfg collected).1.filter
          (fun c => c.kind == "new" || c.kind == "updated") = []) := by
  have hmp : ∀ (s : DBState) (cfg : StoreCfg) (collected : List ItemIn),
      main_program_result s cfg collected = ([], s) := by
    intro s cfg collected
    unfold main_program_result process_items
    split <;> rfl
  refine ⟨rfl, rfl, fun s cfg collected => by rw [hmp], ?_⟩
  intro s cfg collected
  unfold fetch_store_data_calls
  rw [hmp]
  simp only
  split
  · rfl
  · rfl

/-- C2 counterexample database: two stores, each with one undelivered
product. -/
def c2State : DBState :=
  ⟨[⟨1, "alpha", some 0⟩, ⟨2, "beta", some 0⟩],
   [⟨1, "x", "ux", "ix", none, none, 0, 0, 0, false, 1⟩,
    ⟨2, "y", "uy", "iy", none, none, 0, 0, 0, false, 2⟩], 3, 3⟩

/-- The products one notify call carries. -/
def payloadProducts : SentPayload → List ProductOut
  | SentPayload.products ps => ps
  | SentPayload.product p => [p]

/-- The store a delivered product dict belongs to, read back from its row. -/
def productStoreId (s : DBState) (pid : Nat) : Option Nat :=
  (s.products.find? (fun r => r.id == pid)).map (fun r => r.store_id)

/-- A notify call whose products all belong to one store. -/
def sameStoreCall (s : DBState) (call : NotifyCall) : Prop :=
  ∀ p ∈ payloadProducts call.payload, ∀ q ∈ payloadProducts call.payload,
    productStoreId s p.id = productStoreId s q.id

/-- C2 counterexample: dispatching store `"alpha"` on `c2State` makes an
`"unsent"` notify call whose payload mixes a product of store 1 with a
product of store 2 — `get_unsent_products` has no store filter, so the
same-store guarantee fails for the unsent backlog batch. -/
theorem notify_same_store_counterexample :
    ¬ (∀ c ∈ (fetch_store_data_calls c2State ⟨"alpha", "Alpha"⟩ []).1,
        sameStoreCall c2State c) := by
  intro hall
  have hcall := hall ⟨"Alpha",
      SentPayload.products [⟨1, "x", "ux", "ix", none, none⟩,
                            ⟨2, "y", "uy", "iy", none, none⟩], "unsent"⟩
    (by decide)
  have := hcall ⟨1, "x", "ux", "ix", none, none⟩ (by decide)
    ⟨2, "y", "uy", "iy", none, none⟩ (by decide)
  simp [productStoreId, c2State, List.find?] at this

/-- C2 (amended): every notify call the dispatch path makes carries a
non-empty product list; but the only calls ever made are the `"unsent"`
backlog calls, and that backlog is `get_unsent_products` — the undelivered
products of **all** stores, not only the dispatched store's. -/
theorem notify_calls_nonempty_and_unsent (s : DBState) (cfg : StoreCfg)
    (collected : List ItemIn) :
    (fetch_store_data_calls s cfg collected).1
      = (if (get_unsent_products s).isEmpty then []
         else [⟨cfg.name_format, SentPayload.products (get_unsent_products s), "unsent"⟩])
    ∧ ((fetch_store_data_calls s cfg collected).1.all
        (fun c => (match c.payload with
                   | SentPayload.products ps => !ps.isEmpty
                   | SentPayload.product _ => true) && c.kind == "unsent")) = true := by
  have hmp : main_program_result s cfg collected = ([], s) := by
    unfold main_program_result process_items
    split <;> rfl
  have hcalls : (fetch_store_data_calls s cfg collected).1
      = (if (get_unsent_products s).isEmpty then []
         else [⟨cfg.name_format, SentPayload.products (get_unsent_products s), "unsent"⟩]) := by
    unfold fetch_store_data_calls
    rw [hmp]
  refine ⟨hcalls, ?_⟩
  rw [hcalls]
  cases hemp : (get_unsent_products s).isEmpty with
  | true => rfl
  | false =>
    simp only [Bool.false_eq_true, if_false, List.all_cons, List.all_nil, Bool.and_true]
    rw [hemp]
    rfl
